import Mathlib

/-!
# FormCraft — Form Rendering & Validation Engine: shallow embedding

A shallow embedding of the dynamic form engine in
`src/unnamed/part_000` (the `FormFactory` component): the schema data
model, the per-field validator `validateField`, the change handler
`handleFieldChange`, the submit handler `handleSubmit`, the progress
calculator, the multi-select toggle, and the session liveness tracker.

Modelling conventions:
* JavaScript values flowing through the engine (`formData` entries,
  `validateField`'s second argument) are modelled by the inductive
  `Value`, with `Value.undefined` for `undefined` and `Value.null` for
  `null`.  JS truthiness is `Value.truthy` (NaN is not modelled; JS
  numbers are modelled as `Int`, which covers every comparison the
  engine performs, and string lengths as `Int` via coercion).
* JS objects used as string-keyed maps (`formData`, `errors`,
  `newErrors`) are modelled as association lists with JS property
  semantics: assigning to an existing key updates it in place,
  assigning to a fresh key appends it (insertion order, as
  `Object.keys` observes it).
* The JS `RegExp` engine is host functionality external to the
  repository, so `new RegExp(p).test(s)` is abstracted as an explicit
  parameter `rt : String → String → Bool` threaded through the
  validator; every theorem below is parametric in it.
* The timer system of the session effect (`setTimeout` /
  `clearTimeout` / the 30-second `setInterval`) is modelled as a small
  transition system over absolute times in milliseconds, with one
  pending inactivity deadline (the single `inactivityTimeoutRef`).
-/

namespace FormCraft

/-- A JavaScript value as the engine manipulates it: `undefined`,
`null`, a string, a number (modelled as `Int`), a boolean, or an array
of strings (the multi-select value shape). -/
inductive Value where
  | undefined : Value
  | null : Value
  | str : String → Value
  | num : Int → Value
  | bool : Bool → Value
  | list : List String → Value
deriving DecidableEq, Repr

/-- JS truthiness of a `Value`: `undefined`, `null`, `""`, `0` and
`false` are falsy; every other modelled value (including the empty
array) is truthy. -/
def Value.truthy : Value → Bool
  | .undefined => false
  | .null => false
  | .str s => s ≠ ""
  | .num n => n ≠ 0
  | .bool b => b
  | .list _ => true

/-- `typeof value === 'string'` together with
`value.trim() === ''`: the value is a string whose trim is empty,
i.e. all of whose characters are whitespace (trimming both ends
leaves nothing exactly when nothing else is there). -/
def Value.wsOnlyStr : Value → Bool
  | .str s => s.data.all Char.isWhitespace
  | _ => false

/-- The `validation` constraint set of a field
(`FormField.validation` in the source).  All numeric members are JS
numbers, modelled as `Int`. -/
structure Validation where
  min : Option Int := none
  max : Option Int := none
  pattern : Option String := none
  minLength : Option Int := none
  maxLength : Option Int := none
deriving DecidableEq, Repr

/-- The closed set of field types (`FormField.type` in the source). -/
inductive FieldType where
  | text | email | number | tel | date | textarea
  | select | multiselect | checkbox | radio
deriving DecidableEq, Repr

/-- One form field (`FormField` in the source).  `type` is a Lean
keyword, so the member is named `ftype`; `options` entries are
`(value, label)` pairs. -/
structure FormField where
  key : String
  ftype : FieldType
  label : String
  placeholder : Option String := none
  required : Bool
  validation : Option Validation := none
  options : Option (List (String × String)) := none
  description : Option String := none
deriving DecidableEq, Repr

/-- Form display settings (`FormSchema.settings` in the source). -/
structure Settings where
  allowAnonymous : Bool
  showProgress : Bool
  submitText : String
deriving DecidableEq, Repr

/-- One form definition (`FormSchema` in the source). -/
structure FormSchema where
  title : String
  description : String
  fields : List FormField
  settings : Settings
deriving DecidableEq, Repr

/-- JS truthiness of an optional number, as in
`validation.minLength && ...`: present and nonzero. -/
def optIntTruthy : Option Int → Bool
  | none => false
  | some n => n ≠ 0

/-- JS truthiness of an optional string, as in
`validation.pattern && ...`: present and nonempty. -/
def optStrTruthy : Option String → Bool
  | none => false
  | some s => s ≠ ""

/-- The `minLength` guard of `validateField`:
`validation.minLength && typeof value === 'string' && value.length < validation.minLength`. -/
def violMinLength (val : Validation) : Value → Bool
  | .str s => optIntTruthy val.minLength && (s.length : Int) < val.minLength.getD 0
  | _ => false

/-- The `maxLength` guard of `validateField`:
`validation.maxLength && typeof value === 'string' && value.length > validation.maxLength`. -/
def violMaxLength (val : Validation) : Value → Bool
  | .str s => optIntTruthy val.maxLength && (s.length : Int) > val.maxLength.getD 0
  | _ => false

/-- The `min` guard of `validateField`:
`validation.min && typeof value === 'number' && value < validation.min`. -/
def violMin (val : Validation) : Value → Bool
  | .num n => optIntTruthy val.min && n < val.min.getD 0
  | _ => false

/-- The `max` guard of `validateField`:
`validation.max && typeof value === 'number' && value > validation.max`. -/
def violMax (val : Validation) : Value → Bool
  | .num n => optIntTruthy val.max && n > val.max.getD 0
  | _ => false

/-- The `pattern` guard of `validateField`:
`validation.pattern && typeof value === 'string'` and
`!new RegExp(validation.pattern).test(value)`; the host regex engine
is the parameter `rt`. -/
def violPattern (rt : String → String → Bool) (val : Validation) : Value → Bool
  | .str s => optStrTruthy val.pattern && !rt (val.pattern.getD "") s
  | _ => false

/-- `validateField(field, value)` from the source, returning
`some message` for the first failing rule and `none` otherwise.
Rule order is exactly the source's: required-empty, absent-optional
skip, `minLength`, `maxLength`, `min`, `max`, `pattern`. -/
def validateField (rt : String → String → Bool) (f : FormField)
    (v : Value) : Option String :=
  if f.required && (!v.truthy || v.wsOnlyStr) then
    some (f.label ++ " é obrigatório")
  else if !v.truthy && !f.required then
    none
  else
    match f.validation with
    | none => none
    | some val =>
      if violMinLength val v then
        some (f.label ++ " deve ter pelo menos " ++
          toString (val.minLength.getD 0) ++ " caracteres")
      else if violMaxLength val v then
        some (f.label ++ " deve ter no máximo " ++
          toString (val.maxLength.getD 0) ++ " caracteres")
      else if violMin val v then
        some (f.label ++ " deve ser pelo menos " ++ toString (val.min.getD 0))
      else if violMax val v then
        some (f.label ++ " deve ser no máximo " ++ toString (val.max.getD 0))
      else if violPattern rt val v then
        some (f.label ++ " tem formato inválido")
      else
        none

/-- JS object property assignment `m[k] = v` on a string-keyed map
modelled as an association list: an existing key is updated in place,
a fresh key is appended (insertion order). -/
def setKey {α : Type} : List (String × α) → String → α → List (String × α)
  | [], k, v => [(k, v)]
  | (k', v') :: rest, k, v =>
    if k' = k then (k, v) :: rest else (k', v') :: setKey rest k v

/-- JS object property read `m[k]` on a string-keyed map: `some` of
the stored value, or `none` when the key is absent. -/
def getKey {α : Type} : List (String × α) → String → Option α
  | [], _ => none
  | (k', v') :: rest, k => if k' = k then some v' else getKey rest k

/-- `formData[k]` as the engine reads it: the stored value, or
`undefined` when the key was never written. -/
def getValue (m : List (String × Value)) (k : String) : Value :=
  (getKey m k).getD .undefined

/-- `errors[k]` as the engine reads it: the stored message, or the
empty string (both are falsy in the guards that consume it). -/
def getError (m : List (String × String)) (k : String) : String :=
  (getKey m k).getD ""

/-- The component state owned by one `FormFactory` render session:
the immutable `schema` prop together with the two `useState` maps
`formData` (AnswerMap) and `errors` (ErrorMap). -/
structure EngineState where
  schema : FormSchema
  formData : List (String × Value)
  errors : List (String × String)
deriving Repr

/-- `handleFieldChange(key, value)` from the source: store `value`
under `key` in `formData`, and — only when `errors[key]` is truthy —
overwrite `errors[key]` with `""`. -/
def handleFieldChange (st : EngineState) (k : String) (v : Value) :
    EngineState :=
  { st with
    formData := setKey st.formData k v
    errors :=
      if getError st.errors k ≠ "" then setKey st.errors k ""
      else st.errors }

/-- The body of the `schema.fields.forEach` loop in `handleSubmit`:
one field's contribution to the `newErrors` object and the
`hasErrors` flag.  `if (error)` is the JS truthiness test on the
returned message, i.e. non-null and nonempty. -/
def submitStep (rt : String → String → Bool)
    (formData : List (String × Value)) (acc : List (String × String) × Bool)
    (f : FormField) : List (String × String) × Bool :=
  match validateField rt f (getValue formData f.key) with
  | some e => if e = "" then acc else (setKey acc.1 f.key e, true)
  | none => acc

/-- The whole `schema.fields.forEach` loop in `handleSubmit`, folded
over the fields in schema order. -/
def submitScan (rt : String → String → Bool) (fields : List FormField)
    (formData : List (String × Value)) (acc : List (String × String) × Bool) :
    List (String × String) × Bool :=
  fields.foldl (submitStep rt formData) acc

/-- `handleSubmit` from the source: validate every field in schema
order into a fresh `newErrors`, replace the error state with it, and,
when `hasErrors` is false, invoke the submission callback with the
current `formData`.  The callback invocation is modelled by the
second component: `some data` means `onSubmit(data)` was called
(exactly once, as the source calls it at most once per submit),
`none` means it was not. -/
def handleSubmit (rt : String → String → Bool) (st : EngineState) :
    EngineState × Option (List (String × Value)) :=
  let scan := submitScan rt st.schema.fields st.formData ([], false)
  ({ st with errors := scan.1 },
   if scan.2 then none else some st.formData)

/-- The multi-select branch of `renderField`: the current value is
read as an array (anything else, in particular `undefined`, becomes
`[]`). -/
def selectedValues (st : EngineState) (k : String) : List String :=
  match getValue st.formData k with
  | .list xs => xs
  | _ => []

/-- Toggling one multi-select option: the checkbox reports the new
checked state (the negation of `selectedValues.includes(option.value)`),
and the handler appends the option value or filters it out,
routing the new array through `handleFieldChange`. -/
def toggleMultiselect (st : EngineState) (k : String) (ov : String) :
    EngineState :=
  let sel := selectedValues st k
  if ov ∈ sel then
    handleFieldChange st k (.list (sel.filter (fun v => v ≠ ov)))
  else
    handleFieldChange st k (.list (sel ++ [ov]))

/-- The filter in the progress numerator:
`formData[key] !== '' && formData[key] !== null && formData[key] !== undefined`. -/
def answeredFilter (v : Value) : Bool :=
  v ≠ .str "" && v ≠ .null && v ≠ .undefined

/-- `Object.keys(formData).filter(...).length` from the progress
computation: the number of map entries whose value passes
`answeredFilter` (JS object keys are unique, so entries are keys). -/
def countAnswered (formData : List (String × Value)) : Nat :=
  (formData.filter (fun kv => answeredFilter kv.2)).length

/-- The `progress` value from the source, as an exact rational:
`(count / fields.length) * 100` when the schema has fields, `0`
otherwise. -/
def progress (schema : FormSchema) (formData : List (String × Value)) : ℚ :=
  if schema.fields.length > 0 then
    ((countAnswered formData : ℚ) / (schema.fields.length : ℚ)) * 100
  else 0

/-- `Math.round(progress)` as displayed; for the nonnegative values
the engine produces, `Math.round` is round-half-up, which is `round`
on `ℚ`. -/
def displayedProgress (schema : FormSchema)
    (formData : List (String × Value)) : ℤ :=
  round (progress schema formData)

/-- One user-interaction event the engine state reacts to. -/
inductive Event where
  | change (key : String) (value : Value)
  | toggle (key : String) (optionValue : String)
  | submit
deriving Repr

/-- One step of the engine: dispatch an event to the corresponding
handler (the state part of `handleSubmit`; its callback payload is
not part of the state). -/
def step (rt : String → String → Bool) (st : EngineState) :
    Event → EngineState
  | .change k v => handleFieldChange st k v
  | .toggle k ov => toggleMultiselect st k ov
  | .submit => (handleSubmit rt st).1

/-- Run a sequence of events from a state. -/
def run (rt : String → String → Bool) (st : EngineState)
    (evs : List Event) : EngineState :=
  evs.foldl (step rt) st

/-! ## Session liveness tracker (the session `useEffect`)

The timer machinery of the session effect, modelled as a transition
system over absolute times in milliseconds.  `inactivityDeadline` is
the one pending `setTimeout` held in `inactivityTimeoutRef` (a
`setTimeout` is one-shot: firing consumes it); `abandonedWrites`
counts the `responses.abandoned_at` update calls issued by
`markAbandoned`. -/

/-- State of the session liveness tracker. -/
structure TrackerState where
  sessionId : Option String
  inactivityDeadline : Option Nat
  abandonedWrites : Nat
  lastActive : Nat
deriving DecidableEq, Repr

/-- The 5-minute inactivity window, `5 * 60 * 1000` ms. -/
def inactivityWindowMs : Nat := 5 * 60 * 1000

/-- `trackInactivity` from the source: clear the pending timeout, if
any, and arm a fresh one 5 minutes from now. -/
def trackInactivity (now : Nat) (s : TrackerState) : TrackerState :=
  { s with inactivityDeadline := some (now + inactivityWindowMs) }

/-- `markAbandoned` from the source: bail out without a `responseId`,
otherwise issue one `abandoned_at` update against the response
record. -/
def markAbandoned (responseId : Option String) (s : TrackerState) :
    TrackerState :=
  match responseId with
  | none => s
  | some _ => { s with abandonedWrites := s.abandonedWrites + 1 }

/-- The pending inactivity timeout firing at time `now`: it runs (and
is consumed, with no rearm in its callback) only if it is still the
armed deadline. -/
def fireInactivity (responseId : Option String) (now : Nat)
    (s : TrackerState) : TrackerState :=
  if s.inactivityDeadline = some now then
    markAbandoned responseId { s with inactivityDeadline := none }
  else s

/-- `updateActivity` from the source (the 30-second heartbeat body):
bail out with no session id; otherwise record activity, write the
liveness timestamp, and rearm the inactivity timer via
`trackInactivity`. -/
def updateActivity (now : Nat) (s : TrackerState) : TrackerState :=
  match s.sessionId with
  | none => s
  | some _ => trackInactivity now { s with lastActive := now }

/-! ## Helper lemmas -/

theorem getKey_setKey_self {α : Type} (m : List (String × α)) (k : String)
    (v : α) : getKey (setKey m k v) k = some v := by
  induction m with
  | nil => simp [setKey, getKey]
  | cons kv rest ih =>
    obtain ⟨k', v'⟩ := kv
    by_cases h : k' = k <;> simp [setKey, getKey, h, ih]

theorem getKey_setKey_ne {α : Type} (m : List (String × α)) (k k' : String)
    (v : α) (h : k' ≠ k) : getKey (setKey m k v) k' = getKey m k' := by
  induction m with
  | nil => simp [setKey, getKey, Ne.symm h]
  | cons kv rest ih =>
    obtain ⟨k₀, v₀⟩ := kv
    by_cases h0 : k₀ = k
    · subst h0
      simp [setKey, getKey, Ne.symm h]
    · simp only [setKey, if_neg h0, getKey]
      by_cases h1 : k₀ = k' <;> simp [h1, ih]

theorem getKey_eq_none_of_not_mem {α : Type} (m : List (String × α))
    (k : String) (h : k ∉ m.map Prod.fst) : getKey m k = none := by
  induction m with
  | nil => rfl
  | cons kv rest ih =>
    obtain ⟨k₀, v₀⟩ := kv
    simp only [List.map_cons, List.mem_cons, not_or] at h
    simp [getKey, Ne.symm h.1, ih h.2]

theorem string_append_ne_empty (s t : String) (h : t ≠ "") :
    s ++ t ≠ "" := by
  intro hc
  apply h
  have hd := congrArg String.data hc
  simp only [String.data_append, List.append_eq_nil] at hd
  exact String.ext (by simp [hd.2])

theorem string_append3_ne_empty (a b c : String) (hb : b ≠ "") :
    a ++ b ++ c ≠ "" := by
  intro hc
  apply hb
  have hd := congrArg String.data hc
  simp only [String.data_append, List.append_eq_nil] at hd
  exact String.ext (by simp [hd.1.2])

theorem string_append4_ne_empty (a b c d : String) (hb : b ≠ "") :
    a ++ b ++ c ++ d ≠ "" := by
  intro hc
  apply hb
  have hd := congrArg String.data hc
  simp only [String.data_append, List.append_eq_nil] at hd
  exact String.ext (by simp [hd.1.1.2])

/-- No message `validateField` produces is the empty string, so the
JS truthiness test `if (error)` on its result coincides with a
non-null test. -/
theorem validateField_ne_empty (rt : String → String → Bool)
    (f : FormField) (v : Value) : validateField rt f v ≠ some "" := by
  unfold validateField
  split
  · intro hc
    exact string_append_ne_empty _ _ (by decide) (Option.some.inj hc)
  · split
    · exact Option.noConfusion
    · cases hval : f.validation with
      | none => exact Option.noConfusion
      | some val =>
        simp only []
        split
        · intro hc
          exact string_append4_ne_empty _ _ _ _ (by decide)
            (Option.some.inj hc)
        · split
          · intro hc
            exact string_append4_ne_empty _ _ _ _ (by decide)
              (Option.some.inj hc)
          · split
            · intro hc
              exact string_append3_ne_empty _ _ _ (by decide)
                (Option.some.inj hc)
            · split
              · intro hc
                exact string_append3_ne_empty _ _ _ (by decide)
                  (Option.some.inj hc)
              · split
                · intro hc
                  exact string_append_ne_empty _ _ (by decide)
                    (Option.some.inj hc)
                · exact Option.noConfusion

theorem submitStep_getKey_ne (rt : String → String → Bool)
    (fd : List (String × Value)) (acc : List (String × String) × Bool)
    (f : FormField) (k : String) (h : k ≠ f.key) :
    getKey (submitStep rt fd acc f).1 k = getKey acc.1 k := by
  unfold submitStep
  cases validateField rt f (getValue fd f.key) with
  | none => rfl
  | some e =>
    by_cases he : e = ""
    · simp [he]
    · simp [he, getKey_setKey_ne _ _ _ _ h]

theorem submitStep_getKey_some (rt : String → String → Bool)
    (fd : List (String × Value)) (acc : List (String × String) × Bool)
    (f : FormField) (e : String)
    (hv : validateField rt f (getValue fd f.key) = some e) :
    getKey (submitStep rt fd acc f).1 f.key = some e := by
  have hne : e ≠ "" := by
    intro hc
    exact validateField_ne_empty rt f (getValue fd f.key) (hc ▸ hv)
  unfold submitStep
  rw [hv]
  simp [hne, getKey_setKey_self]

theorem submitStep_getKey_none (rt : String → String → Bool)
    (fd : List (String × Value)) (acc : List (String × String) × Bool)
    (f : FormField)
    (hv : validateField rt f (getValue fd f.key) = none) :
    (submitStep rt fd acc f).1 = acc.1 := by
  unfold submitStep
  rw [hv]

theorem submitStep_snd (rt : String → String → Bool)
    (fd : List (String × Value)) (acc : List (String × String) × Bool)
    (f : FormField) :
    (submitStep rt fd acc f).2 =
      (acc.2 || (validateField rt f (getValue fd f.key)).isSome) := by
  unfold submitStep
  cases hv : validateField rt f (getValue fd f.key) with
  | none => simp
  | some e =>
    have hne : e ≠ "" := by
      intro hc
      exact validateField_ne_empty rt f (getValue fd f.key) (hc ▸ hv)
    simp [hne]

theorem submitScan_getKey_not_mem (rt : String → String → Bool)
    (fd : List (String × Value)) (fields : List FormField)
    (acc : List (String × String) × Bool) (k : String)
    (h : ∀ f ∈ fields, f.key ≠ k) :
    getKey (submitScan rt fields fd acc).1 k = getKey acc.1 k := by
  induction fields generalizing acc with
  | nil => rfl
  | cons f rest ih =>
    have hf : f.key ≠ k := h f (by simp)
    have hrest : ∀ g ∈ rest, g.key ≠ k := fun g hg => h g (by simp [hg])
    show getKey (submitScan rt rest fd (submitStep rt fd acc f)).1 k = _
    rw [ih _ hrest, submitStep_getKey_ne rt fd acc f k (Ne.symm hf)]

theorem submitScan_getKey_mem (rt : String → String → Bool)
    (fd : List (String × Value)) (fields : List FormField)
    (acc : List (String × String) × Bool) (f : FormField)
    (hnd : (fields.map FormField.key).Nodup) (hmem : f ∈ fields)
    (hacc : getKey acc.1 f.key = none) :
    getKey (submitScan rt fields fd acc).1 f.key =
      validateField rt f (getValue fd f.key) := by
  induction fields generalizing acc with
  | nil => exact absurd hmem (List.not_mem_nil f)
  | cons f₀ rest ih =>
    simp only [List.map_cons, List.nodup_cons] at hnd
    rcases List.mem_cons.mp hmem with heq | hrest
    · subst heq
      have hnone : ∀ g ∈ rest, g.key ≠ f.key := by
        intro g hg hc
        exact hnd.1 (hc ▸ List.mem_map_of_mem FormField.key hg)
      show getKey (submitScan rt rest fd (submitStep rt fd acc f)).1 f.key = _
      rw [submitScan_getKey_not_mem rt fd rest _ f.key hnone]
      cases hv : validateField rt f (getValue fd f.key) with
      | none => rw [submitStep_getKey_none rt fd acc f hv, hacc]
      | some e => exact submitStep_getKey_some rt fd acc f e hv
    · have hne : f.key ≠ f₀.key := by
        intro hc
        exact hnd.1 (hc ▸ List.mem_map_of_mem FormField.key hrest)
      show getKey (submitScan rt rest fd (submitStep rt fd acc f₀)).1 f.key = _
      exact ih (submitStep rt fd acc f₀) hnd.2 hrest
        ((submitStep_getKey_ne rt fd acc f₀ f.key hne).trans hacc)

theorem submitScan_snd (rt : String → String → Bool)
    (fd : List (String × Value)) (fields : List FormField)
    (acc : List (String × String) × Bool) :
    (submitScan rt fields fd acc).2 =
      (acc.2 ||
        fields.any (fun f => (validateField rt f (getValue fd f.key)).isSome)) := by
  induction fields generalizing acc with
  | nil => simp [submitScan]
  | cons f rest ih =>
    show (submitScan rt rest fd (submitStep rt fd acc f)).2 = _
    rw [ih (submitStep rt fd acc f), submitStep_snd rt fd acc f]
    simp [Bool.or_assoc]

theorem handleSubmit_eq (rt : String → String → Bool) (st : EngineState) :
    handleSubmit rt st =
      ({ st with errors := (submitScan rt st.schema.fields st.formData ([], false)).1 },
       if (submitScan rt st.schema.fields st.formData ([], false)).2 then none
       else some st.formData) := rfl

/-! ## Concrete fixtures for witnesses and counterexamples -/

/-- A trivial stand-in for the host regex engine. -/
def rtAny : String → String → Bool := fun _ _ => true

/-- A concrete required email field. -/
def emailField : FormField :=
  { key := "email", ftype := .email, label := "Email", required := true }

/-- A concrete one-field schema. -/
def wSchema : FormSchema :=
  { title := "T", description := "", fields := [emailField],
    settings := { allowAnonymous := true, showProgress := true,
                  submitText := "Enviar" } }

/-- A state whose one required field is filled. -/
def wStateFilled : EngineState :=
  { schema := wSchema, formData := [("email", .str "a@b.com")], errors := [] }

/-- The same answers with a stale error entry. -/
def wStateErr : EngineState :=
  { schema := wSchema, formData := [("email", .str "a@b.com")],
    errors := [("email", "boom")] }

/-- A concrete optional field that declares constraints. -/
def optField : FormField :=
  { key := "nick", ftype := .text, label := "Apelido", required := false,
    validation := some { minLength := some 3, pattern := some "^[a-z]+$" } }

/-! ## Claim theorems -/

/-- C1: on a submit attempt the validator runs over every field in
schema order without short-circuiting across fields, producing a
complete ErrorMap (each field's entry is exactly its validation
result); `onSubmit` is invoked, exactly once (the `Option` payload)
and with the current AnswerMap verbatim, if and only if no field has
an error; otherwise submission is aborted. -/
theorem C1_submit_contract (rt : String → String → Bool) (st : EngineState)
    (hnd : (st.schema.fields.map FormField.key).Nodup) :
    (∀ f ∈ st.schema.fields,
      getError (handleSubmit rt st).1.errors f.key =
        (validateField rt f (getValue st.formData f.key)).getD "")
    ∧ ((handleSubmit rt st).2 = some st.formData ↔
        ∀ f ∈ st.schema.fields,
          validateField rt f (getValue st.formData f.key) = none) := by
  rw [handleSubmit_eq]
  constructor
  · intro f hf
    unfold getError
    rw [submitScan_getKey_mem rt st.formData st.schema.fields ([], false) f
      hnd hf rfl]
  · have hsnd := submitScan_snd rt st.formData st.schema.fields ([], false)
    simp only [Bool.false_or] at hsnd
    rw [hsnd]
    constructor
    · intro hs f hf
      by_contra hne
      have hone : (validateField rt f (getValue st.formData f.key)).isSome
          = true := Option.ne_none_iff_isSome.mp hne
      have : st.schema.fields.any
          (fun f => (validateField rt f (getValue st.formData f.key)).isSome)
          = true := List.any_eq_true.mpr ⟨f, hf, hone⟩
      rw [this] at hs
      exact Option.noConfusion hs
    · intro hall
      have : st.schema.fields.any
          (fun f => (validateField rt f (getValue st.formData f.key)).isSome)
          = false := List.any_eq_false.mpr (fun f hf => by simp [hall f hf])
      rw [this]
      rfl

/-- Witness for C1 at a concrete filled state: the callback receives
the AnswerMap verbatim. -/
theorem C1_submit_contract_witness :
    (handleSubmit rtAny wStateFilled).2 = some wStateFilled.formData := by
  have h := C1_submit_contract rtAny wStateFilled (by decide)
  exact h.2.mpr (by decide)

/-- C6: the value-change operation stores the value under the key,
leaves that key with no error (clearing it when one existed), and
leaves every other key's answer and error entries — and the schema —
unchanged. -/
theorem C6_change_frame (st : EngineState) (k : String) (v : Value)
    (k' : String) (hk : k' ≠ k) :
    getValue (handleFieldChange st k v).formData k = v
    ∧ getError (handleFieldChange st k v).errors k = ""
    ∧ getValue (handleFieldChange st k v).formData k' = getValue st.formData k'
    ∧ getError (handleFieldChange st k v).errors k' = getError st.errors k'
    ∧ (handleFieldChange st k v).schema = st.schema := by
  refine ⟨?_, ?_, ?_, ?_, rfl⟩
  · unfold handleFieldChange getValue
    rw [getKey_setKey_self]
    rfl
  · unfold handleFieldChange
    by_cases h : getError st.errors k ≠ ""
    · simp only [if_pos h]
      unfold getError
      rw [getKey_setKey_self]
      rfl
    · simp only [if_neg h]
      exact not_ne_iff.mp h
  · unfold handleFieldChange getValue
    rw [getKey_setKey_ne _ _ _ _ hk]
  · unfold handleFieldChange
    by_cases h : getError st.errors k ≠ ""
    · simp only [if_pos h]
      unfold getError
      rw [getKey_setKey_ne _ _ _ _ hk]
    · simp only [if_neg h]

/-- Witness for C6 at concrete keys and state. -/
theorem C6_change_frame_witness :
    getValue (handleFieldChange wStateErr "email" (.str "x")).formData "email"
      = .str "x"
    ∧ getError (handleFieldChange wStateErr "email" (.str "x")).errors "email"
      = "" := by
  have h := C6_change_frame wStateErr "email" (.str "x") "other" (by decide)
  exact ⟨h.1, h.2.1⟩

/-- C7: an optional field validates an absent value to no error,
whatever constraints it declares (the absent-optional rule accepts
before any constraint rule is reached). -/
theorem C7_optional_absent_valid (rt : String → String → Bool)
    (f : FormField) (h : f.required = false) :
    validateField rt f .undefined = none := by
  unfold validateField
  simp [h, Value.truthy]

/-- Witness for C7: a concrete optional field declaring `minLength`
and `pattern` constraints accepts an absent value. -/
theorem C7_optional_absent_valid_witness :
    validateField rtAny optField .undefined = none :=
  C7_optional_absent_valid rtAny optField rfl

theorem step_schema (rt : String → String → Bool) (st : EngineState)
    (ev : Event) : (step rt st ev).schema = st.schema := by
  cases ev with
  | change k v => rfl
  | submit => rfl
  | toggle k ov =>
    show (if ov ∈ selectedValues st k
      then handleFieldChange st k
        (.list ((selectedValues st k).filter (fun v => v ≠ ov)))
      else handleFieldChange st k
        (.list (selectedValues st k ++ [ov]))).schema = st.schema
    split <;> rfl

/-- C9: the engine never mutates the schema: across any sequence of
field changes, multi-select toggles and submit attempts, the schema
value (hence its title, description, fields and settings) is
unchanged. -/
theorem C9_schema_immutable (rt : String → String → Bool) (st : EngineState)
    (evs : List Event) : (run rt st evs).schema = st.schema := by
  induction evs generalizing st with
  | nil => rfl
  | cons ev rest ih =>
    show (run rt (step rt st ev) rest).schema = _
    rw [ih (step rt st ev), step_schema]

/-- C10: a submit attempt never modifies the AnswerMap, and the
resulting ErrorMap is fully recomputed from the schema and answers
alone — two states agreeing on schema and answers yield the same
post-submit ErrorMap regardless of their prior errors. -/
theorem C10_submit_preserves_answers (rt : String → String → Bool)
    (st st' : EngineState) (hfd : st'.formData = st.formData)
    (hs : st'.schema = st.schema) :
    (handleSubmit rt st).1.formData = st.formData
    ∧ (handleSubmit rt st').1.errors = (handleSubmit rt st).1.errors := by
  constructor
  · rfl
  · rw [handleSubmit_eq, handleSubmit_eq]
    simp [hfd, hs]

/-- Witness for C10: a failed-validation state and a stale-error
state with the same answers produce identical recomputed errors, and
the answers survive the attempt. -/
theorem C10_submit_preserves_answers_witness :
    (handleSubmit rtAny wStateFilled).1.formData = wStateFilled.formData
    ∧ (handleSubmit rtAny wStateErr).1.errors
      = (handleSubmit rtAny wStateFilled).1.errors :=
  C10_submit_preserves_answers rtAny wStateFilled wStateErr rfl rfl

/-- All constraint-rule guards of `validateField` pass for this
value (each guard as the source writes it, truthiness included). -/
def passesConstraints (rt : String → String → Bool) (f : FormField)
    (v : Value) : Bool :=
  match f.validation with
  | none => true
  | some val =>
    !violMinLength val v && !violMaxLength val v && !violMin val v
      && !violMax val v && !violPattern rt val v

/-- A concrete required numeric field with no other constraints. -/
def ageField : FormField :=
  { key := "age", ftype := .number, label := "Idade", required := true }

/-- Counterexample to C3 as stated: the numeric value `0` is neither
absent nor an empty/whitespace-only string and violates no other
declared constraint (the field declares none), so the claim predicts
no error; the code's required check is the JS truthiness test
`!value`, which `0` fails, so the required error is produced. -/
theorem C3_counterexample :
    validateField rtAny ageField (.num 0) = some "Idade é obrigatório" := by
  decide

/-- C3 amended: for a required field, validating a JS-falsy value
(absent, null, empty string, the number `0`, `false`) or a
whitespace-only string yields the required error embedding the
field's label; and validating any truthy, non-whitespace-only value
that violates no other declared constraint yields no error. -/
theorem C3_required_amended (rt : String → String → Bool) (f : FormField)
    (v : Value) (hreq : f.required = true) :
    ((v.truthy = false ∨ v.wsOnlyStr = true) →
      validateField rt f v = some (f.label ++ " é obrigatório"))
    ∧ (v.truthy = true → v.wsOnlyStr = false → passesConstraints rt f v = true →
      validateField rt f v = none) := by
  constructor
  · intro h
    rcases h with h | h <;> simp [validateField, hreq, h]
  · intro ht hw hp
    cases hv : f.validation with
    | none => simp [validateField, hreq, ht, hw, hv]
    | some val =>
      have hp' := hp
      unfold passesConstraints at hp'
      rw [hv] at hp'
      simp only [Bool.and_eq_true, Bool.not_eq_true'] at hp'
      obtain ⟨⟨⟨⟨h1, h2⟩, h3⟩, h4⟩, h5⟩ := hp'
      simp [validateField, hreq, ht, hw, hv, h1, h2, h3, h4, h5]

/-- Witness for C3's amended theorem: the same required field errors
on the falsy `0` and accepts the truthy `25`. -/
theorem C3_required_amended_witness :
    validateField rtAny ageField (.num 0) = some (ageField.label ++ " é obrigatório")
    ∧ validateField rtAny ageField (.num 25) = none := by
  constructor
  · exact (C3_required_amended rtAny ageField (.num 0) rfl).1 (by decide)
  · exact (C3_required_amended rtAny ageField (.num 25) rfl).2
      (by decide) (by decide) (by decide)

/-- Outcome of one validation rule in the spec's pipeline
description: fail with a message, accept the value outright (skip all
remaining rules), or pass to the next rule. -/
inductive RuleResult where
  | err : String → RuleResult
  | accept : RuleResult
  | pass : RuleResult
deriving DecidableEq, Repr

/-- First-failing-rule-wins evaluation of an ordered rule list, as
the spec describes the validator: the first `err` is returned, an
`accept` short-circuits to no error, and an empty list means no
error. -/
def runRules : List (Value → RuleResult) → Value → Option String
  | [], _ => none
  | r :: rs, v =>
    match r v with
    | .err m => some m
    | .accept => none
    | .pass => runRules rs v

/-- The validator's rules in the claimed fixed order: required-empty,
absent-optional skip, `minLength`, `maxLength`, `min`, `max`,
`pattern` — each rule's condition as the source implements it
(declared-threshold truthiness included). -/
def specRules (rt : String → String → Bool) (f : FormField) :
    List (Value → RuleResult) :=
  [ fun v =>
      if f.required && (!v.truthy || v.wsOnlyStr) then
        .err (f.label ++ " é obrigatório")
      else .pass,
    fun v => if !v.truthy && !f.required then .accept else .pass,
    fun v =>
      match f.validation with
      | some val =>
        if violMinLength val v then
          .err (f.label ++ " deve ter pelo menos " ++
            toString (val.minLength.getD 0) ++ " caracteres")
        else .pass
      | none => .pass,
    fun v =>
      match f.validation with
      | some val =>
        if violMaxLength val v then
          .err (f.label ++ " deve ter no máximo " ++
            toString (val.maxLength.getD 0) ++ " caracteres")
        else .pass
      | none => .pass,
    fun v =>
      match f.validation with
      | some val =>
        if violMin val v then
          .err (f.label ++ " deve ser pelo menos " ++ toString (val.min.getD 0))
        else .pass
      | none => .pass,
    fun v =>
      match f.validation with
      | some val =>
        if violMax val v then
          .err (f.label ++ " deve ser no máximo " ++ toString (val.max.getD 0))
        else .pass
      | none => .pass,
    fun v =>
      match f.validation with
      | some val =>
        if violPattern rt val v then .err (f.label ++ " tem formato inválido")
        else .pass
      | none => .pass ]

/-- A concrete optional numeric field declaring `min = 0`. -/
def scoreField : FormField :=
  { key := "score", ftype := .number, label := "Saldo", required := false,
    validation := some { min := some 0 } }

/-- Counterexample to C2 as stated: `scoreField` declares `min = 0`
and the numeric value `-1` is strictly below it, so the claim
predicts the below-minimum error; the code's guard is the JS
truthiness test `validation.min && ...`, which a zero minimum fails,
so no error is produced. -/
theorem C2_counterexample :
    validateField rtAny scoreField (.num (-1)) = none ∧ (-1 : Int) < 0 := by
  constructor
  · decide
  · decide

/-- C2 amended: `validateField` is exactly the first-failing-rule
evaluation of the rules in the fixed order required-empty,
absent-optional skip, `minLength`, `maxLength`, `min`, `max`,
`pattern` (so no rule fires after the first failure and no error
means no rule fails) — with each threshold guard active only when
the declared threshold is JS-truthy; in particular, for a field
declaring a nonzero `min`, a nonzero numeric value strictly below it
yields the below-minimum error embedding the threshold. -/
theorem C2_rule_order (rt : String → String → Bool) (f : FormField) :
    (∀ v, validateField rt f v = runRules (specRules rt f) v)
    ∧ (∀ (val : Validation) (m n : Int), f.validation = some val →
        val.min = some m → m ≠ 0 → n ≠ 0 → n < m →
        validateField rt f (.num n) =
          some (f.label ++ " deve ser pelo menos " ++ toString m)) := by
  constructor
  · intro v
    cases hv : f.validation with
    | none =>
      simp only [validateField, specRules, runRules, hv]
      split_ifs <;> rfl
    | some val =>
      simp only [validateField, specRules, runRules, hv]
      split_ifs <;> rfl
  · intro val m n hval hm hm0 hn0 hlt
    have htr : Value.truthy (.num n) = true := by
      simp [Value.truthy, hn0]
    have hviol : violMin val (.num n) = true := by
      simp [violMin, optIntTruthy, hm, hm0, hlt]
    have hnominl : violMinLength val (.num n) = false := rfl
    have hnomaxl : violMaxLength val (.num n) = false := rfl
    simp [validateField, hval, htr, Value.wsOnlyStr, hnominl, hnomaxl,
      hviol, hm]

/-- Witness for C2 at a concrete field and value: the rule pipeline
agrees with the validator, and a nonzero minimum fires. -/
theorem C2_rule_order_witness :
    validateField rtAny ageField (.num 0) =
      runRules (specRules rtAny ageField) (.num 0)
    ∧ validateField rtAny
        { scoreField with validation := some { min := some 10 } } (.num 3) =
      some "Saldo deve ser pelo menos 10" := by
  constructor
  · exact (C2_rule_order rtAny ageField).1 (.num 0)
  · exact (C2_rule_order rtAny
      { scoreField with validation := some { min := some 10 } }).2
      { min := some 10 } 10 3 rfl rfl (by decide) (by decide) (by decide)

/-- A fresh render session: `useState({})` for both maps. -/
def emptyState (schema : FormSchema) : EngineState :=
  { schema := schema, formData := [], errors := [] }

/-- C5: toggling a multi-select option on appends its value to the
end of the field's string-array value and toggling it off removes
it, so first-seen order is preserved and a duplicate-free value stays
duplicate-free; in particular, from no value, toggling `"a"` on,
`"b"` on, then `"a"` off yields `["b"]`. -/
theorem C5_multiselect_toggle (st : EngineState) (k ov : String)
    (schema : FormSchema) :
    (ov ∉ selectedValues st k →
      selectedValues (toggleMultiselect st k ov) k
        = selectedValues st k ++ [ov])
    ∧ (ov ∈ selectedValues st k →
      selectedValues (toggleMultiselect st k ov) k
        = (selectedValues st k).filter (fun v => v ≠ ov))
    ∧ ((selectedValues st k).Nodup →
      (selectedValues (toggleMultiselect st k ov) k).Nodup)
    ∧ selectedValues
        (toggleMultiselect
          (toggleMultiselect (toggleMultiselect (emptyState schema) k "a")
            k "b") k "a") k = ["b"] := by
  have hset : ∀ (s : EngineState) (xs : List String),
      selectedValues (handleFieldChange s k (.list xs)) k = xs := by
    intro s xs
    unfold selectedValues handleFieldChange getValue
    rw [getKey_setKey_self]
    rfl
  have ha : ∀ (s : EngineState) (o : String), o ∉ selectedValues s k →
      selectedValues (toggleMultiselect s k o) k
        = selectedValues s k ++ [o] := by
    intro s o h
    show selectedValues
      (if o ∈ selectedValues s k
        then handleFieldChange s k
          (.list ((selectedValues s k).filter (fun v => v ≠ o)))
        else handleFieldChange s k (.list (selectedValues s k ++ [o]))) k = _
    rw [if_neg h]
    exact hset s _
  have hb : ∀ (s : EngineState) (o : String), o ∈ selectedValues s k →
      selectedValues (toggleMultiselect s k o) k
        = (selectedValues s k).filter (fun v => v ≠ o) := by
    intro s o h
    show selectedValues
      (if o ∈ selectedValues s k
        then handleFieldChange s k
          (.list ((selectedValues s k).filter (fun v => v ≠ o)))
        else handleFieldChange s k (.list (selectedValues s k ++ [o]))) k = _
    rw [if_pos h]
    exact hset s _
  refine ⟨ha st ov, hb st ov, ?_, ?_⟩
  · intro hnd
    by_cases h : ov ∈ selectedValues st k
    · rw [hb st ov h]
      exact hnd.filter _
    · rw [ha st ov h]
      simp [List.nodup_append, hnd, h]
  · have e0 : selectedValues (emptyState schema) k = [] := rfl
    have h1 := ha (emptyState schema) "a" (by rw [e0]; simp)
    rw [e0, List.nil_append] at h1
    have h2 := ha (toggleMultiselect (emptyState schema) k "a") "b"
      (by rw [h1]; decide)
    rw [h1] at h2
    have h3 := hb
      (toggleMultiselect (toggleMultiselect (emptyState schema) k "a") k "b")
      "a" (by rw [h2]; decide)
    rw [h2] at h3
    rw [h3]
    decide

/-- Witness for C5 at a concrete state and keys: the toggled value
stays duplicate-free. -/
theorem C5_multiselect_toggle_witness :
    (selectedValues (toggleMultiselect (emptyState wSchema) "m" "x") "m").Nodup := by
  have h := C5_multiselect_toggle (emptyState wSchema) "m" "x" wSchema
  exact h.2.2.1 (by decide)

theorem filter_length_shift (l : List FormField) (k : String) (b : Bool)
    (g1 g2 : FormField → Bool)
    (hnd : (l.map FormField.key).Nodup)
    (hne : ∀ f ∈ l, f.key ≠ k → g1 f = g2 f)
    (heq1 : ∀ f ∈ l, f.key = k → g1 f = b)
    (heq2 : ∀ f ∈ l, f.key = k → g2 f = false)
    (hmem : k ∈ l.map FormField.key) :
    (l.filter g1).length = (l.filter g2).length + (if b then 1 else 0) := by
  induction l with
  | nil => simp at hmem
  | cons f rest ih =>
    simp only [List.map_cons, List.nodup_cons] at hnd
    by_cases hf : f.key = k
    · have hr : ∀ g ∈ rest, g.key ≠ k := by
        intro g hg hc
        exact hnd.1 (hf ▸ hc ▸ List.mem_map_of_mem FormField.key hg)
      have hfilter : rest.filter g1 = rest.filter g2 :=
        List.filter_congr (fun g hg => hne g (List.mem_cons_of_mem f hg) (hr g hg))
      rw [List.filter_cons, List.filter_cons,
        heq1 f (List.mem_cons_self f rest) hf,
        heq2 f (List.mem_cons_self f rest) hf]
      cases b with
      | true => simp [hfilter]
      | false => simp [hfilter]
    · have hmem' : k ∈ rest.map FormField.key := by
        rcases List.mem_cons.mp hmem with hc | hc
        · exact absurd hc.symm hf
        · exact hc
      have ihh := ih hnd.2
        (fun g hg h => hne g (List.mem_cons_of_mem f hg) h)
        (fun g hg h => heq1 g (List.mem_cons_of_mem f hg) h)
        (fun g hg h => heq2 g (List.mem_cons_of_mem f hg) h)
        hmem'
      rw [List.filter_cons, List.filter_cons,
        hne f (List.mem_cons_self f rest) hf]
      cases hgf : g2 f with
      | true => simp [ihh]; omega
      | false => simp [ihh]

theorem countAnswered_eq_fields (fields : List FormField)
    (fd : List (String × Value))
    (h1 : (fd.map Prod.fst).Nodup)
    (h2 : (fields.map FormField.key).Nodup)
    (h3 : ∀ kv ∈ fd, kv.1 ∈ fields.map FormField.key) :
    countAnswered fd =
      (fields.filter (fun f => answeredFilter (getValue fd f.key))).length := by
  induction fd with
  | nil =>
    have : fields.filter (fun f => answeredFilter (getValue [] f.key)) = [] := by
      apply List.eq_nil_iff_forall_not_mem.mpr
      intro f hf
      have := (List.mem_filter.mp hf).2
      simp [getValue, getKey, answeredFilter] at this
    simp [countAnswered, this]
  | cons kv rest ih =>
    obtain ⟨k, v⟩ := kv
    simp only [List.map_cons, List.nodup_cons] at h1
    have hkmem : k ∈ fields.map FormField.key :=
      h3 (k, v) (List.mem_cons_self _ rest)
    have hrest3 : ∀ kv ∈ rest, kv.1 ∈ fields.map FormField.key :=
      fun kv hkv => h3 kv (List.mem_cons_of_mem _ hkv)
    have hgv : ∀ q : String, q ≠ k →
        getValue ((k, v) :: rest) q = getValue rest q := by
      intro q hq
      simp [getValue, getKey, Ne.symm hq]
    have hgvk : getValue ((k, v) :: rest) k = v := by
      simp [getValue, getKey]
    have hrestk : getValue rest k = .undefined := by
      unfold getValue
      rw [getKey_eq_none_of_not_mem rest k h1.1]
      rfl
    have hshift := filter_length_shift fields k (answeredFilter v)
      (fun f => answeredFilter (getValue ((k, v) :: rest) f.key))
      (fun f => answeredFilter (getValue rest f.key))
      h2
      (fun f _ hf => by
        show answeredFilter (getValue ((k, v) :: rest) f.key)
          = answeredFilter (getValue rest f.key)
        rw [hgv f.key hf])
      (fun f _ hf => by
        show answeredFilter (getValue ((k, v) :: rest) f.key)
          = answeredFilter v
        rw [hf, hgvk])
      (fun f _ hf => by
        show answeredFilter (getValue rest f.key) = false
        rw [hf, hrestk]
        rfl)
      hkmem
    have ihh := ih h1.2 hrest3
    rw [hshift, ← ihh]
    simp only [countAnswered, List.filter_cons]
    cases hav : answeredFilter v with
    | true => simp
    | false => simp

/-- A concrete four-field schema. -/
def quadSchema : FormSchema :=
  { title := "Q", description := "", fields :=
      [ { key := "a", ftype := .text, label := "A", required := false },
        { key := "b", ftype := .text, label := "B", required := false },
        { key := "c", ftype := .text, label := "C", required := false },
        { key := "d", ftype := .text, label := "D", required := false } ],
    settings := { allowAnonymous := true, showProgress := true,
                  submitText := "Enviar" } }

/-- A concrete schema with no fields. -/
def noFieldSchema : FormSchema :=
  { title := "N", description := "", fields := [],
    settings := { allowAnonymous := true, showProgress := true,
                  submitText := "Enviar" } }

/-- C4: the displayed progress is the count of fields whose answer
entry is defined, non-null and not the empty string, divided by the
total field count, times 100, rounded to nearest; a schema with zero
fields gives 0 with no division. -/
theorem C4_progress (schema : FormSchema) (fd : List (String × Value))
    (h1 : (fd.map Prod.fst).Nodup)
    (h2 : (schema.fields.map FormField.key).Nodup)
    (h3 : ∀ kv ∈ fd, kv.1 ∈ schema.fields.map FormField.key) :
    displayedProgress schema fd =
      (if schema.fields.length = 0 then 0 else
        round
          ((((schema.fields.filter
              (fun f => answeredFilter (getValue fd f.key))).length : ℚ) /
            (schema.fields.length : ℚ)) * 100)) := by
  unfold displayedProgress progress
  rcases Nat.eq_zero_or_pos schema.fields.length with hz | hp
  · simp [hz]
  · rw [if_pos hp, if_neg (by omega : ¬schema.fields.length = 0),
      countAnswered_eq_fields schema.fields fd h1 h2 h3]

/-- Witness for C4: four fields with two non-empty answers display
50; the zero-field schema displays 0. -/
theorem C4_progress_witness :
    displayedProgress quadSchema [("a", .str "x"), ("b", .str "y")] = 50
    ∧ displayedProgress noFieldSchema [] = 0 := by
  constructor
  · rw [C4_progress quadSchema [("a", .str "x"), ("b", .str "y")]
      (by decide) (by decide) (by decide)]
    have hflen : (quadSchema.fields.filter
        (fun f => answeredFilter
          (getValue [("a", Value.str "x"), ("b", Value.str "y")] f.key))).length
        = 2 := by decide
    rw [hflen]
    have hlen : quadSchema.fields.length = 4 := by decide
    rw [hlen]
    norm_num [round_eq]
  · rw [C4_progress noFieldSchema [] (by decide) (by decide) (by decide)]
    rfl

/-- C8: in the session liveness tracker, if no activity update occurs
before the armed 5-minute deadline then firing it issues exactly one
abandoned-mark write and leaves no timer armed (so no further firing
writes again); a heartbeat that fires inside the window instead
prevents that write — the old deadline no longer fires — and rearms
the timer 5 minutes from the heartbeat. -/
theorem C8_inactivity_tracker (rid sid : String) (s : TrackerState)
    (d t : Nat) (hd : s.inactivityDeadline = some d)
    (hsid : s.sessionId = some sid) (ht1 : t < d)
    (ht2 : d < t + inactivityWindowMs) :
    ((fireInactivity (some rid) d s).abandonedWrites = s.abandonedWrites + 1
     ∧ (fireInactivity (some rid) d s).inactivityDeadline = none
     ∧ ∀ u, fireInactivity (some rid) u (fireInactivity (some rid) d s)
         = fireInactivity (some rid) d s)
    ∧ ((updateActivity t s).inactivityDeadline
         = some (t + inactivityWindowMs)
     ∧ (updateActivity t s).abandonedWrites = s.abandonedWrites
     ∧ (fireInactivity (some rid) d (updateActivity t s)).abandonedWrites
         = s.abandonedWrites) := by
  have hne : t + inactivityWindowMs ≠ d := by omega
  constructor
  · refine ⟨?_, ?_, ?_⟩
    · simp [fireInactivity, markAbandoned, hd]
    · simp [fireInactivity, markAbandoned, hd]
    · intro u
      simp [fireInactivity, markAbandoned, hd]
  · refine ⟨?_, ?_, ?_⟩
    · simp [updateActivity, trackInactivity, hsid]
    · simp [updateActivity, trackInactivity, hsid]
    · simp [updateActivity, trackInactivity, hsid, fireInactivity, hne]

/-- Witness for C8 at a concrete tracker state: the timer armed at
time 0 fires at 300000 ms with one write; a heartbeat at 100000 ms
leaves the write count unchanged. -/
theorem C8_inactivity_tracker_witness :
    (fireInactivity (some "r1") 300000
      { sessionId := some "s1", inactivityDeadline := some 300000,
        abandonedWrites := 0, lastActive := 0 }).abandonedWrites = 1
    ∧ (fireInactivity (some "r1") 300000
        (updateActivity 100000
          { sessionId := some "s1", inactivityDeadline := some 300000,
            abandonedWrites := 0, lastActive := 0 })).abandonedWrites = 0 := by
  have h := C8_inactivity_tracker "r1" "s1"
    { sessionId := some "s1", inactivityDeadline := some 300000,
      abandonedWrites := 0, lastActive := 0 }
    300000 100000 rfl rfl (by decide) (by decide)
  exact ⟨h.1.1, h.2.2.2⟩

end FormCraft
